import Mathlib

/-!
Verification of the legal-precedent search engine
(`utils/pattern_detectors.py`, `utils/scoring.py`, `utils/precedent_search.py`).

Shallow embedding conventions:
* Python strings are Lean `String`s; character-level work happens on `String.data`
  (`List Char`).
* The regex character classes are embedded as executable character predicates.
  `\d`, `\s`, `\w` and `str.lower` are modelled with their ASCII meaning
  (plus the explicit Hangul range `가-힣` of the patterns); the repository's
  data and queries are Korean/ASCII text, where this agrees with Python.
* Python floats are embedded as exact rationals (`Rat`); every score constant
  in the source is decimal (`0.6`, `85.0`, ...), written here as `mkRat`
  fractions or integer literals denoting the same rational values.
* Python dicts with fixed key sets are embedded as structures; the two record
  schemas share one `Record` structure of optional fields, one per Korean key
  the scoring core reads.  Dict/list iteration order is insertion order,
  mirrored by Lean lists.
* `re.search` = first position (left to right) at which the pattern matches;
  `re.finditer` = repeated leftmost matching, resuming after each match.
  The three patterns of the source and the five date patterns are each compiled
  by hand into deterministic scanners; greedy backtracking is resolved
  statically (e.g. `(\d{1,2})\.` tries two digits, then one).
-/

/-! ### Character classes and basic string helpers -/

/-- The regex class `\d` (ASCII decimal digits). -/
def isDigitC (c : Char) : Bool := 48 ≤ c.toNat && c.toNat ≤ 57

/-- The regex class `[가-힣]` (precomposed Hangul syllables). -/
def isHangulC (c : Char) : Bool := 0xAC00 ≤ c.toNat && c.toNat ≤ 0xD7A3

/-- The regex class `\s` (ASCII whitespace). -/
def isSpaceC (c : Char) : Bool :=
  c = ' ' || c = '\t' || c = '\n' || c = '\r' || c = '\x0b' || c = '\x0c'

/-- The regex class `\w` together with `가-힣`, as used by `normalize_text`. -/
def keepWordChar (c : Char) : Bool :=
  (65 ≤ c.toNat && c.toNat ≤ 90) || (97 ≤ c.toNat && c.toNat ≤ 122) ||
  isDigitC c || c = '_' || isHangulC c

/-- `str.lower`, character by character (ASCII case mapping). -/
def lowerL (cs : List Char) : List Char := cs.map Char.toLower

/-- Python substring containment `needle in hay` on character lists. -/
def isSubB (n : List Char) : List Char → Bool
  | [] => n.isEmpty
  | c :: t => n.isPrefixOf (c :: t) || isSubB n t

/-- A greedy run `p*`: the pair (longest prefix satisfying `p`, rest). -/
def takeRun (p : Char → Bool) (cs : List Char) : List Char × List Char :=
  (cs.takeWhile p, cs.dropWhile p)

/-- Exactly `n` characters satisfying `p` (the regex `p{n}`), with the rest. -/
def takeExact (p : Char → Bool) : Nat → List Char → Option (List Char × List Char)
  | 0, cs => some ([], cs)
  | _ + 1, [] => none
  | n + 1, c :: t =>
    if p c then (takeExact p n t).map (fun g => (c :: g.1, g.2)) else none

/-- Strip a literal prefix, returning the rest on success. -/
def stripL : List Char → List Char → Option (List Char)
  | [], cs => some cs
  | _ :: _, [] => none
  | p :: ps, c :: t => if c = p then stripL ps t else none

/-- `str.zfill`: left-pad with `'0'` to width `n` (digit-only inputs here). -/
def zfill (n : Nat) (cs : List Char) : List Char :=
  List.replicate (n - cs.length) '0' ++ cs

/-- `str.split(sep)` for a one-character separator. -/
def splitOnChar (sep : Char) : List Char → List (List Char)
  | [] => [[]]
  | c :: t =>
    let r := splitOnChar sep t
    if c = sep then [] :: r
    else
      match r with
      | [] => [[c]]
      | h :: t2 => (c :: h) :: t2

/-- Digit characters to a number (models `int` on the digit-only groups;
`none` models `int`'s `ValueError` on other input). -/
def charsToNat? (cs : List Char) : Option Nat :=
  if cs = [] then none
  else if cs.all isDigitC then
    some (cs.foldl (fun acc c => 10 * acc + (c.toNat - 48)) 0)
  else none

/-- `re.search`: try the position matcher at every index, left to right. -/
def searchAux {α : Type} (m : List Char → Option α) : List Char → Option α
  | [] => m []
  | c :: t =>
    match m (c :: t) with
    | some g => some g
    | none => searchAux m t

/-- `re.finditer` driver: repeated leftmost matching, resuming after each
match (every pattern here consumes at least one character, so the fuel
`cs.length + 1` given by `findIter` is never exhausted). -/
def findIterAux {α : Type} (m : List Char → Option (α × List Char)) :
    Nat → List Char → List α
  | 0, _ => []
  | _ + 1, [] =>
    match m [] with
    | some (g, _) => [g]
    | none => []
  | fuel + 1, c :: t =>
    match m (c :: t) with
    | some (g, rest) => g :: findIterAux m fuel rest
    | none => findIterAux m fuel t

/-- All non-overlapping matches of a position matcher, leftmost first. -/
def findIter {α : Type} (m : List Char → Option (α × List Char)) (cs : List Char) :
    List α :=
  findIterAux m (cs.length + 1) cs

/-! ### Date patterns (`DATE_PATTERNS`, `detect_date`, `normalize_date_match`) -/

/-- The regex fragment `(\d{1,2})` followed by the literal `sep`
(greedy: two digits are preferred when the separator follows them). -/
def matchD12Sep (sep : Char) : List Char → Option (List Char × List Char)
  | c1 :: c2 :: c3 :: r =>
    if isDigitC c1 then
      if isDigitC c2 then
        if c3 = sep then some ([c1, c2], r) else none
      else if c2 = sep then some ([c1], c3 :: r) else none
    else none
  | [c1, c2] =>
    if isDigitC c1 && !isDigitC c2 && c2 = sep then some ([c1], []) else none
  | _ => none

/-- The regex fragment `(\d{1,2})` at the end of a pattern (greedy, no
trailing context). -/
def matchD12End : List Char → Option (List Char × List Char)
  | c1 :: c2 :: r =>
    if isDigitC c1 then
      if isDigitC c2 then some ([c1, c2], r) else some ([c1], c2 :: r)
    else none
  | [c1] => if isDigitC c1 then some ([c1], []) else none
  | [] => none

/-- `(\d{4})-(\d{1,2})-(\d{1,2})` at the current position. -/
def matchHyphenAt (cs : List Char) : Option (List (List Char) × List Char) :=
  match takeExact isDigitC 4 cs with
  | none => none
  | some (y, r1) =>
    match r1 with
    | '-' :: r2 =>
      match matchD12Sep '-' r2 with
      | none => none
      | some (mo, r3) =>
        match matchD12End r3 with
        | none => none
        | some (d, r4) => some ([y, mo, d], r4)
    | _ => none

/-- `(\d{4})\.(\d{1,2})\.(\d{1,2})` at the current position. -/
def matchDotAt (cs : List Char) : Option (List (List Char) × List Char) :=
  match takeExact isDigitC 4 cs with
  | none => none
  | some (y, r1) =>
    match r1 with
    | '.' :: r2 =>
      match matchD12Sep '.' r2 with
      | none => none
      | some (mo, r3) =>
        match matchD12End r3 with
        | none => none
        | some (d, r4) => some ([y, mo, d], r4)
    | _ => none

/-- `(\d{4})\s+(\d{1,2})\.\s*(\d{1,2})` at the current position. -/
def matchSpaceDotAt (cs : List Char) : Option (List (List Char) × List Char) :=
  match takeExact isDigitC 4 cs with
  | none => none
  | some (y, r1) =>
    let (sp, r2) := takeRun isSpaceC r1
    if sp = [] then none
    else
      match matchD12Sep '.' r2 with
      | none => none
      | some (mo, r3) =>
        let (_, r4) := takeRun isSpaceC r3
        match matchD12End r4 with
        | none => none
        | some (d, r5) => some ([y, mo, d], r5)

/-- `(\d{4})년\s*(\d{1,2})월\s*(\d{1,2})일` at the current position. -/
def matchKoreanAt (cs : List Char) : Option (List (List Char) × List Char) :=
  match takeExact isDigitC 4 cs with
  | none => none
  | some (y, r1) =>
    match r1 with
    | '년' :: r2 =>
      let (_, r3) := takeRun isSpaceC r2
      match matchD12Sep '월' r3 with
      | none => none
      | some (mo, r4) =>
        let (_, r5) := takeRun isSpaceC r4
        match matchD12Sep '일' r5 with
        | none => none
        | some (d, r6) => some ([y, mo, d], r6)
    | _ => none

/-- `(\d{8})` at the current position. -/
def matchCompactAt (cs : List Char) : Option (List (List Char) × List Char) :=
  match takeExact isDigitC 8 cs with
  | none => none
  | some (ds, r) => some ([ds], r)

/-- `DATE_PATTERNS`: the five (pattern, pattern_type) pairs, in source order. -/
def dateMatchers :
    List ((List Char → Option (List (List Char) × List Char)) × String) :=
  [(matchHyphenAt, "hyphen"), (matchDotAt, "dot"), (matchSpaceDotAt, "space_dot"),
   (matchKoreanAt, "korean"), (matchCompactAt, "compact")]

/-- Gregorian leap year (as `datetime`). -/
def isLeap (y : Nat) : Bool := y % 4 = 0 && (y % 100 ≠ 0 || y % 400 = 0)

/-- Days in a month (as `datetime`). -/
def daysInMonth (y m : Nat) : Nat :=
  if m = 2 then (if isLeap y then 29 else 28)
  else if m = 4 || m = 6 || m = 9 || m = 11 then 30
  else 31

/-- `datetime(year, month, day)` succeeds exactly on these triples
(`MINYEAR = 1`, `MAXYEAR = 9999`, real calendar dates). -/
def isValidDate (y m d : Nat) : Bool :=
  1 ≤ y && y ≤ 9999 && 1 ≤ m && m ≤ 12 && 1 ≤ d && d ≤ daysInMonth y m

/-- `normalize_date_match`: groups plus pattern type to a normalized
`YYYY-MM-DD` string; `none` both for the explicit `return None` branches and
for the caught `ValueError` of `int`/`datetime`. -/
def normalize_date_match (groups : List (List Char)) (ptype : String) :
    Option String :=
  let ymd? : Option (List Char × List Char × List Char) :=
    if ptype = "compact" then
      match groups with
      | [ds] =>
        if ds.length = 8 then some (ds.take 4, (ds.drop 4).take 2, ds.drop 6)
        else none
      | _ => none
    else
      match groups with
      | y :: mo :: d :: _ => some (y, mo, d)
      | _ => none
  match ymd? with
  | none => none
  | some (y, mo, d) =>
    match charsToNat? y, charsToNat? mo, charsToNat? d with
    | some yn, some mn, some dn =>
      if isValidDate yn mn dn then
        some ⟨y ++ '-' :: zfill 2 mo ++ '-' :: zfill 2 d⟩
      else none
    | _, _, _ => none

/-- `detect_date`: run the five patterns in order over the whole query,
normalize every match, and append each normalized date not already present. -/
def detect_date (query : String) : List String :=
  dateMatchers.foldl
    (fun dates pm =>
      (findIter pm.1 query.data).foldl
        (fun ds g =>
          match normalize_date_match g pm.2 with
          | some s => if s ∈ ds then ds else ds ++ [s]
          | none => ds)
        dates)
    []

/-! ### Case numbers (`CASE_NUMBER_PATTERN`, `detect_case_number`) -/

/-- The simple case-number core `(\d{4})([가-힣]+)(\d+)` at the current
position, with the rest (both quantifiers resolve to maximal runs, since
neither Hangul nor a digit can continue the other's run). -/
def matchSimpleCaseAt (cs : List Char) :
    Option ((List Char × List Char × List Char) × List Char) :=
  match takeExact isDigitC 4 cs with
  | none => none
  | some (y, r1) =>
    let (t, r2) := takeRun isHangulC r1
    if t = [] then none
    else
      let (n, r3) := takeRun isDigitC r2
      if n = [] then none else some ((y, t, n), r3)

/-- The last `n` elements of a list. -/
def lastN (n : Nat) (l : List Char) : List Char := l.drop (l.length - n)

/-- `([가-힣]+(?:지법|고법|대법원))?(\d{4})([가-힣]+)(\d+)` at the current
position.  When the position starts with a Hangul run, the optional court
group must consume the whole run (digits follow it), the run must end in a
recognized suffix, and at least one Hangul character must precede the suffix;
otherwise the group is skipped and the core must start at the position. -/
def matchCaseAt (cs : List Char) :
    Option (Option (List Char) × List Char × List Char × List Char) :=
  let (h, r1) := takeRun isHangulC cs
  if h = [] then
    (matchSimpleCaseAt cs).map (fun g => (none, g.1))
  else
    let courtOk :=
      (3 ≤ h.length && (lastN 2 h = "지법".data || lastN 2 h = "고법".data)) ||
      (4 ≤ h.length && lastN 3 h = "대법원".data)
    if courtOk then
      (matchSimpleCaseAt r1).map (fun g => (some h, g.1))
    else none

/-- The dict returned by `detect_case_number` (string fields). -/
structure CaseInfo where
  court : String
  year : String
  type : String
  number : String
  full : String
deriving DecidableEq

/-- `detect_case_number`: first match of `CASE_NUMBER_PATTERN` anywhere in
the query (`court or ''` when the optional group is absent). -/
def detect_case_number (query : String) : Option CaseInfo :=
  match searchAux matchCaseAt query.data with
  | none => none
  | some (court, y, t, n) =>
    let c : String := ⟨(court.getD [])⟩
    some ⟨c, ⟨y⟩, ⟨t⟩, ⟨n⟩, c ++ ⟨y⟩ ++ ⟨t⟩ ++ ⟨n⟩⟩

/-! ### Precedent numbers (`PRECEDENT_NUMBER_FULL_PATTERN`,
`detect_precedent_number`) -/

/-- `\[([가-힣]+)\s+(\d{4})\.\s*(\d{1,2})\.\s*(\d{1,2})\.\s*선고\s+`
`(\d{4}[가-힣]+\d+)\s*판결\]` at the current position, returning
(court, year, month, day, case id, whole matched substring). -/
def matchPrecFullAt (cs : List Char) :
    Option (List Char × List Char × List Char × List Char × List Char ×
      List Char) :=
  match cs with
  | '[' :: r0 =>
    let (court, r1) := takeRun isHangulC r0
    if court = [] then none
    else
      let (sp1, r2) := takeRun isSpaceC r1
      if sp1 = [] then none
      else
        match takeExact isDigitC 4 r2 with
        | none => none
        | some (y, r3) =>
          match r3 with
          | '.' :: r4 =>
            let (_, r5) := takeRun isSpaceC r4
            match matchD12Sep '.' r5 with
            | none => none
            | some (mo, r6) =>
              let (_, r7) := takeRun isSpaceC r6
              match matchD12Sep '.' r7 with
              | none => none
              | some (d, r8) =>
                let (_, r9) := takeRun isSpaceC r8
                match stripL "선고".data r9 with
                | none => none
                | some r10 =>
                  let (sp2, r11) := takeRun isSpaceC r10
                  if sp2 = [] then none
                  else
                    match matchSimpleCaseAt r11 with
                    | none => none
                    | some ((y2, t2, n2), r12) =>
                      let (_, r13) := takeRun isSpaceC r12
                      match stripL "판결".data r13 with
                      | none => none
                      | some r14 =>
                        match r14 with
                        | ']' :: r15 =>
                          some (court, y, mo, d, y2 ++ t2 ++ n2,
                            cs.take (cs.length - r15.length))
                        | _ => none
          | _ => none
  | _ => none

/-- The dict returned by `detect_precedent_number` (string fields). -/
structure PrecInfo where
  court : String
  date : String
  case_id : String
  full : String
deriving DecidableEq

/-- `detect_precedent_number`: the full bracketed citation first, then the
simplified bare case id, else `none`. -/
def detect_precedent_number (query : String) : Option PrecInfo :=
  match searchAux matchPrecFullAt query.data with
  | some (court, y, mo, d, cid, full) =>
    some ⟨⟨court⟩, ⟨y ++ '-' :: zfill 2 mo ++ '-' :: zfill 2 d⟩, ⟨cid⟩, ⟨full⟩⟩
  | none =>
    match searchAux matchSimpleCaseAt query.data with
    | some ((y, t, n), _) =>
      let cid : String := ⟨y ++ t ++ n⟩
      some ⟨"", "", cid, cid⟩
    | none => none

/-! ### Alias tables and the court / customs detectors -/

/-- `COURT_ALIASES`, in source (insertion) order. -/
def courtAliases : List (String × List String) :=
  [("대법원", ["대법원"]),
   ("서울고법", ["서울고등법원", "서울고법"]),
   ("서울고등법원", ["서울고등법원", "서울고법"]),
   ("부산고법", ["부산고등법원", "부산고법"]),
   ("부산고등법원", ["부산고등법원", "부산고법"]),
   ("대구고법", ["대구고등법원", "대구고법"]),
   ("대구고등법원", ["대구고등법원", "대구고법"]),
   ("광주고법", ["광주고등법원", "광주고법"]),
   ("광주고등법원", ["광주고등법원", "광주고법"]),
   ("대전고법", ["대전고등법원", "대전고법"]),
   ("대전고등법원", ["대전고등법원", "대전고법"]),
   ("서울중앙지법", ["서울중앙지방법원", "서울중앙지법"]),
   ("서울지법", ["서울중앙지방법원", "서울지법"]),
   ("인천지법", ["인천지방법원", "인천지법"]),
   ("인천지방법원", ["인천지방법원", "인천지법"]),
   ("수원지법", ["수원지방법원", "수원지법"]),
   ("수원지방법원", ["수원지방법원", "수원지법"]),
   ("부산지법", ["부산지방법원", "부산지법"]),
   ("부산지방법원", ["부산지방법원", "부산지법"]),
   ("대구지법", ["대구지방법원", "대구지법"]),
   ("대구지방법원", ["대구지방법원", "대구지법"]),
   ("대전지법", ["대전지방법원", "대전지법"]),
   ("대전지방법원", ["대전지방법원", "대전지법"]),
   ("광주지법", ["광주지방법원", "광주지법"]),
   ("광주지방법원", ["광주지방법원", "광주지법"]),
   ("울산지법", ["울산지방법원", "울산지법"]),
   ("울산지방법원", ["울산지방법원", "울산지법"]),
   ("창원지법", ["창원지방법원", "창원지법"]),
   ("창원지방법원", ["창원지방법원", "창원지법"]),
   ("의정부지법", ["의정부지방법원", "의정부지법"]),
   ("의정부지방법원", ["의정부지방법원", "의정부지법"])]

/-- `CUSTOMS_ALIASES`, in source (insertion) order. -/
def customsAliases : List (String × List String) :=
  [("인천공항세관", ["인천공항세관", "인천공항"]),
   ("인천세관", ["인천세관"]),
   ("서울세관", ["서울세관", "서울본부세관"]),
   ("부산세관", ["부산세관", "부산본부세관"]),
   ("대전세관", ["대전세관"]),
   ("대구세관", ["대구세관"]),
   ("광주세관", ["광주세관"]),
   ("평택세관", ["평택세관"]),
   ("천안세관", ["천안세관"])]

/-- The dict returned by `detect_court` / `detect_customs`. -/
structure AliasMatch where
  input : String
  normalized_name : String
  is_alias : Bool
deriving DecidableEq

/-- First pass over one entry's aliases: exact containment in the query. -/
def passOneInner (q : List Char) (std : String) : List String →
    Option AliasMatch
  | [] => none
  | a :: as =>
    if isSubB a.data q then some ⟨a, std, a != std⟩
    else passOneInner q std as

/-- First pass over the whole table. -/
def passOne (q : List Char) : List (String × List String) → Option AliasMatch
  | [] => none
  | (std, aliases) :: rest =>
    match passOneInner q std aliases with
    | some r => some r
    | none => passOne q rest

/-- Second pass over one entry's aliases: case-insensitive containment in
either direction. -/
def passTwoInner (query : String) (ql : List Char) (std : String) :
    List String → Option AliasMatch
  | [] => none
  | a :: as =>
    if isSubB a.data ql || isSubB ql a.data then some ⟨query, std, true⟩
    else passTwoInner query ql std as

/-- Second pass over the whole table. -/
def passTwo (query : String) (ql : List Char) :
    List (String × List String) → Option AliasMatch
  | [] => none
  | (std, aliases) :: rest =>
    match passTwoInner query ql std aliases with
    | some r => some r
    | none => passTwo query ql rest

/-- `detect_court`: exact alias containment first, then loose containment
on the lowercased query. -/
def detect_court (query : String) : Option AliasMatch :=
  match passOne query.data courtAliases with
  | some r => some r
  | none => passTwo query (lowerL query.data) courtAliases

/-- `detect_customs`: the same two passes over the customs table. -/
def detect_customs (query : String) : Option AliasMatch :=
  match passOne query.data customsAliases with
  | some r => some r
  | none => passTwo query (lowerL query.data) customsAliases

/-- The dict returned by `detect_all_patterns`. -/
structure AllPatterns where
  case_number : Option CaseInfo
  precedent_number : Option PrecInfo
  dates : List String
  court : Option AliasMatch
  customs : Option AliasMatch
deriving DecidableEq

/-- `detect_all_patterns`. -/
def detect_all_patterns (query : String) : AllPatterns :=
  ⟨detect_case_number query, detect_precedent_number query,
   detect_date query, detect_court query, detect_customs query⟩

/-! ### Field scorers (`scoring.py`) -/

/-- `normalize_text`: strip everything but word characters and Hangul, then
lowercase. -/
def normalize_text (text : String) : String :=
  ⟨lowerL (text.data.filter keepWordChar)⟩

/-- `extract_numbers`: keep only digits. -/
def extract_numbers (text : String) : String :=
  ⟨text.data.filter isDigitC⟩

/-- `match_case_number_score`. -/
def match_case_number_score (query target : String) : Rat :=
  match detect_case_number query, detect_case_number target with
  | some qi, some ti =>
    if qi.full = ti.full then 100
    else
      let query_core := qi.year ++ qi.type ++ qi.number
      let target_core := ti.year ++ ti.type ++ ti.number
      if query_core = target_core then
        if qi.court ≠ "" then 90 else 85
      else if isSubB query_core.data target_core.data ||
          isSubB target_core.data query_core.data then 70
      else if qi.number = ti.number then 50
      else 0
  | _, _ => 0

/-- The leftmost `[가-힣]+` run of a string (`re.search` group 0). -/
def firstHangulRun : List Char → Option (List Char)
  | [] => none
  | c :: t =>
    if isHangulC c then some (c :: t.takeWhile isHangulC)
    else firstHangulRun t

/-- `match_precedent_number_score`. -/
def match_precedent_number_score (query target : String) : Rat :=
  match detect_precedent_number query, detect_precedent_number target with
  | some qi, some ti =>
    if normalize_text query = normalize_text target then 100
    else if qi.case_id = ti.case_id then 90
    else if qi.court ≠ "" ∧ ti.court ≠ "" ∧ qi.court = ti.court ∧
        qi.case_id = ti.case_id then 85
    else
      let query_year := qi.case_id.data.take 4
      let target_year := ti.case_id.data.take 4
      match firstHangulRun qi.case_id.data, firstHangulRun ti.case_id.data with
      | some qt, some tt =>
        if query_year = target_year ∧ qt = tt then 60 else 0
      | _, _ => 0
  | _, _ => 0

/-- `match_date_score` (the guarded indexing never fails; the `try` block's
value semantics are embedded directly, see `match_date_scoreE` below). -/
def match_date_score (query_date target_date : String) : Rat :=
  if query_date = "" ∨ target_date = "" then 0
  else if normalize_text query_date = normalize_text target_date then 100
  else
    let query_parts := splitOnChar '-' query_date.data
    let target_parts :=
      if target_date.data.contains '-' then splitOnChar '-' target_date.data
      else splitOnChar '.' target_date.data
    match query_parts, target_parts with
    | q0 :: qrest, t0 :: trest =>
      if q0 = t0 then
        match qrest, trest with
        | q1 :: _, t1 :: _ => if zfill 2 q1 = zfill 2 t1 then 70 else 40
        | _, _ => 40
      else 0
    | _, _ => 0

/-- `match_court_score`. -/
def match_court_score (query target : String) : Rat :=
  if query = "" ∨ target = "" then 0
  else
    match detect_court query, detect_court target with
    | some qi, some ti =>
      if qi.normalized_name = ti.normalized_name then
        if qi.is_alias = false ∧ ti.is_alias = false then 100 else 95
      else if isSubB qi.normalized_name.data ti.normalized_name.data ∨
          isSubB ti.normalized_name.data qi.normalized_name.data then 70
      else 0
    | _, _ =>
      if normalize_text query = normalize_text target then 100
      else if isSubB (normalize_text query).data (normalize_text target).data
        then 70
      else 0

/-- `match_customs_score`. -/
def match_customs_score (query target : String) : Rat :=
  if query = "" ∨ target = "" then 0
  else
    match detect_customs query, detect_customs target with
    | some qi, some ti =>
      if qi.normalized_name = ti.normalized_name then
        if qi.is_alias = false ∧ ti.is_alias = false then 100 else 95
      else if isSubB qi.normalized_name.data ti.normalized_name.data ∨
          isSubB ti.normalized_name.data qi.normalized_name.data then 70
      else 0
    | _, _ =>
      if normalize_text query = normalize_text target then 100
      else if isSubB (normalize_text query).data (normalize_text target).data
        then 70
      else 0

/-! ### The aggregate scorer (`calculate_precedent_score`,
`get_matched_fields`) -/

/-- A precedent record: one optional field per Korean key that the scoring
core reads (`'사건번호'`, `'판례번호'`, `'선고일자\n(종결일자)'`, `'선고일자'`,
`'법원명'`, `'처분청'`); `none` embeds "key absent". -/
structure Record where
  caseNumber : Option String
  precedentNumber : Option String
  kcsDate : Option String
  molegDate : Option String
  courtName : Option String
  customsOffice : Option String
deriving DecidableEq

/-- The weight `0.6` of the identifier field (an exact rational). -/
def weightId : Rat := mkRat 6 10

/-- The weight `0.2` of the date / court / customs fields. -/
def weightAux : Rat := mkRat 2 10

/-- The `field_scores` dict built by `calculate_precedent_score`, in
insertion order: entries `(name, score, weight)`, added only when the
individual score is strictly positive. -/
def field_scores (query : String) (d : Record) (source : String) :
    List (String × Rat × Rat) :=
  let part1 : List (String × Rat × Rat) :=
    if source = "kcs" then
      match d.caseNumber with
      | some v =>
        let s := match_case_number_score query v
        if s > 0 then [("case_number", s, weightId)] else []
      | none => []
    else if source = "moleg" then
      match d.precedentNumber with
      | some v =>
        let s := match_precedent_number_score query v
        if s > 0 then [("precedent_number", s, weightId)] else []
      | none => []
    else []
  let detected_dates := detect_date query
  let part2 : List (String × Rat × Rat) :=
    if detected_dates ≠ [] then
      match (if source = "kcs" then d.kcsDate else d.molegDate) with
      | some dv =>
        let m := detected_dates.foldl
          (fun acc dd => max acc (match_date_score dd dv)) 0
        if m > 0 then [("date", m, weightAux)] else []
      | none => []
    else []
  let part3 : List (String × Rat × Rat) :=
    if source = "moleg" then
      match d.courtName with
      | some cv =>
        match detect_court query with
        | some _ =>
          let s := match_court_score query cv
          if s > 0 then [("court", s, weightAux)] else []
        | none => []
      | none => []
    else []
  let part4 : List (String × Rat × Rat) :=
    if source = "kcs" then
      match d.customsOffice with
      | some cv =>
        match detect_customs query with
        | some _ =>
          let s := match_customs_score query cv
          if s > 0 then [("customs", s, weightAux)] else []
        | none => []
      | none => []
    else []
  part1 ++ part2 ++ part3 ++ part4

/-- `calculate_precedent_score`: weighted average over the contributing
fields, renormalized by the used weights, plus a multi-field bonus, capped
at 100. -/
def calculate_precedent_score (query : String) (d : Record) (source : String) :
    Rat :=
  let fs := field_scores query d source
  if fs = [] then 0
  else
    let total_weighted_score : Rat :=
      fs.foldl (fun acc e => acc + e.2.1 * e.2.2) 0
    let total_weight : Rat := fs.foldl (fun acc e => acc + e.2.2) 0
    let matched_fields_count := fs.length
    let base_score :=
      if total_weight > 0 then total_weighted_score / total_weight else 0
    let multi_field_bonus : Rat :=
      if matched_fields_count = 2 then 5
      else if matched_fields_count ≥ 3 then 10
      else 0
    min (base_score + multi_field_bonus) 100

/-- `get_matched_fields`: the per-field scores shown to the UI, with the
source's Korean field labels. -/
def get_matched_fields (query : String) (d : Record) (source : String) :
    List (String × Rat) :=
  let part1 : List (String × Rat) :=
    if source = "kcs" then
      match d.caseNumber with
      | some v =>
        let s := match_case_number_score query v
        if s > 0 then [("사건번호", s)] else []
      | none => []
    else if source = "moleg" then
      match d.precedentNumber with
      | some v =>
        let s := match_precedent_number_score query v
        if s > 0 then [("판례번호", s)] else []
      | none => []
    else []
  let detected_dates := detect_date query
  let part2 : List (String × Rat) :=
    if detected_dates ≠ [] then
      match (if source = "kcs" then d.kcsDate else d.molegDate) with
      | some dv =>
        let m := detected_dates.foldl
          (fun acc dd => max acc (match_date_score dd dv)) 0
        if m > 0 then [("선고일자", m)] else []
      | none => []
    else []
  let part3 : List (String × Rat) :=
    if source = "moleg" then
      match d.courtName with
      | some cv =>
        match detect_court query with
        | some _ =>
          let s := match_court_score query cv
          if s > 0 then [("법원명", s)] else []
        | none => []
      | none => []
    else []
  let part4 : List (String × Rat) :=
    if source = "kcs" then
      match d.customsOffice with
      | some cv =>
        match detect_customs query with
        | some _ =>
          let s := match_customs_score query cv
          if s > 0 then [("처분청", s)] else []
        | none => []
      | none => []
    else []
  part1 ++ part2 ++ part3 ++ part4

/-! ### The search orchestrator (`precedent_search.py`) -/

/-- One element of `search_precedent`'s result list. -/
structure SearchResult where
  score : Rat
  source : String
  data : Record
  matchedFields : List (String × Rat)
deriving DecidableEq

/-- The per-collection scan loop of `search_precedent`: score each record
and keep those reaching `minScore`, in collection order. -/
def scanRecords (query : String) (source : String) (minScore : Rat) :
    List Record → List SearchResult
  | [] => []
  | r :: rs =>
    let score := calculate_precedent_score query r source
    if score ≥ minScore then
      ⟨score, source, r, get_matched_fields query r source⟩ ::
        scanRecords query source minScore rs
    else scanRecords query source minScore rs

/-- Stable insertion into a list sorted by descending score: the new element
goes in front of the first entry whose score does not exceed it. -/
def insertDesc (x : SearchResult) : List SearchResult → List SearchResult
  | [] => [x]
  | y :: ys => if y.score ≤ x.score then x :: y :: ys else y :: insertDesc x ys

/-- `results.sort(key=score, reverse=True)`: a stable descending sort
(Python's sort is stable; any stable sort produces the same list). -/
def sortDesc (l : List SearchResult) : List SearchResult :=
  l.foldr insertDesc []

/-- `search_precedent`: scan KCS then MOLEG, sort by score descending
(stable), truncate to `topK`. -/
def search_precedent (query : String) (dataKcs dataMoleg : List Record)
    (topK : Nat) (minScore : Rat) : List SearchResult :=
  (sortDesc (scanRecords query "kcs" minScore dataKcs ++
    scanRecords query "moleg" minScore dataMoleg)).take topK

/-! ### Exception-aware variants (for the no-raise claim)

Python raise sites are made explicit: list indexing and `int`/`datetime`
return `Except`, a `try/except` is an explicit handler.  The only raise
sites in the ten core functions sit inside `try` blocks
(`normalize_date_match`, `detect_date`, `match_date_score`); everything
else is built from total operations. -/

/-- `l[i]`, raising `IndexError` when out of range. -/
def listGetE {α : Type} (l : List α) (i : Nat) : Except String α :=
  match l.get? i with
  | some a => Except.ok a
  | none => Except.error "IndexError"

/-- `int(cs)`, raising `ValueError` on non-digit input. -/
def charsToNatE (cs : List Char) : Except String Nat :=
  match charsToNat? cs with
  | some n => Except.ok n
  | none => Except.error "ValueError"

/-- `datetime(y, m, d)`, raising `ValueError` on an invalid date. -/
def datetimeE (y m d : Nat) : Except String Unit :=
  if isValidDate y m d then Except.ok () else Except.error "ValueError"

/-- `normalize_date_match` with explicit raising: group unpacking raises
outside any handler; the inner `try ... except ValueError: return None`
handles `int`/`datetime`. -/
def normalize_date_matchE (groups : List (List Char)) (ptype : String) :
    Except String (Option String) :=
  let ymdE : Except String (Option (List Char × List Char × List Char)) :=
    if ptype = "compact" then
      match groups with
      | [ds] =>
        if ds.length = 8 then
          Except.ok (some (ds.take 4, (ds.drop 4).take 2, ds.drop 6))
        else Except.ok none
      | _ => Except.error "IndexError"
    else
      match groups with
      | y :: mo :: d :: _ => Except.ok (some (y, mo, d))
      | _ => Except.error "ValueError"
  match ymdE with
  | Except.error e => Except.error e
  | Except.ok none => Except.ok none
  | Except.ok (some (y, mo, d)) =>
    let tryBody : Except String String :=
      match charsToNatE y with
      | Except.error e => Except.error e
      | Except.ok yn =>
        match charsToNatE mo with
        | Except.error e => Except.error e
        | Except.ok mn =>
          match charsToNatE d with
          | Except.error e => Except.error e
          | Except.ok dn =>
            match datetimeE yn mn dn with
            | Except.error e => Except.error e
            | Except.ok _ =>
              Except.ok ⟨y ++ '-' :: zfill 2 mo ++ '-' :: zfill 2 d⟩
    match tryBody with
    | Except.ok s => Except.ok (some s)
    | Except.error _ => Except.ok none  -- except ValueError: return None

/-- `detect_date` with every `normalize_date_match` call under the loop's
catch-all `try ... except: continue`. -/
def detect_dateE (query : String) : List String :=
  dateMatchers.foldl
    (fun dates pm =>
      (findIter pm.1 query.data).foldl
        (fun ds g =>
          match normalize_date_matchE g pm.2 with
          | Except.ok (some s) => if s ∈ ds then ds else ds ++ [s]
          | Except.ok none => ds
          | Except.error _ => ds)  -- except: continue
        dates)
    []

/-- `match_date_score` with explicit raising for the indexing in its `try`
block (`except: pass` falls through to `return 0.0`). -/
def match_date_scoreE (query_date target_date : String) : Except String Rat :=
  if query_date = "" ∨ target_date = "" then Except.ok 0
  else if normalize_text query_date = normalize_text target_date then
    Except.ok 100
  else
    let query_parts := splitOnChar '-' query_date.data
    let target_parts :=
      if target_date.data.contains '-' then splitOnChar '-' target_date.data
      else splitOnChar '.' target_date.data
    let tryBody : Except String Rat :=
      if query_parts.length ≥ 1 ∧ target_parts.length ≥ 1 then
        match listGetE query_parts 0, listGetE target_parts 0 with
        | Except.ok q0, Except.ok t0 =>
          if q0 = t0 then
            if query_parts.length ≥ 2 ∧ target_parts.length ≥ 2 then
              match listGetE query_parts 1, listGetE target_parts 1 with
              | Except.ok q1, Except.ok t1 =>
                if zfill 2 q1 = zfill 2 t1 then Except.ok 70 else Except.ok 40
              | Except.error e, _ => Except.error e
              | _, Except.error e => Except.error e
            else Except.ok 40
          else Except.ok 0
        | Except.error e, _ => Except.error e
        | _, Except.error e => Except.error e
      else Except.ok 0
    match tryBody with
    | Except.ok v => Except.ok v
    | Except.error _ => Except.ok 0  -- except: pass; return 0.0

/-! ### Specification-side definitions (used only in theorem statements) -/

/-- The spec's renormalization denominator: the sum of the contributing
fields' weights. -/
def weightSum (l : List (String × Rat × Rat)) : Rat :=
  (l.map (fun e => e.2.2)).sum

/-- The spec's weighted numerator: the sum of score times weight over the
contributing fields. -/
def weightedScoreSum (l : List (String × Rat × Rat)) : Rat :=
  (l.map (fun e => e.2.1 * e.2.2)).sum

/-- The spec's multi-field bonus as a function of the contributing-field
count. -/
def fieldBonus (n : Nat) : Rat := if n = 2 then 5 else if 3 ≤ n then 10 else 0

/-- Keep the first occurrence of each element, in order. -/
def dedupKeepFirst (l : List String) : List String :=
  l.foldl (fun ds s => if s ∈ ds then ds else ds ++ [s]) []

/-- The stream of normalized date candidates in the scan order of
`detect_date`: pattern-major (source order of `DATE_PATTERNS`), position-minor. -/
def dateCandidates (query : String) : List String :=
  dateMatchers.foldr
    (fun pm acc =>
      (findIter pm.1 query.data).filterMap (fun g => normalize_date_match g pm.2)
        ++ acc)
    []

/-- The query contains no (ASCII) digit. -/
def noDigitStr (q : String) : Prop := ∀ c ∈ q.data, isDigitC c = false

instance (q : String) : Decidable (noDigitStr q) := by
  unfold noDigitStr; infer_instance

/-- No alias of one table stands in a containment relation with the query:
not a substring of the query (first pass), and in neither direction a
substring with the lowercased query (second pass). -/
def noAliasRelationIn (table : List (String × List String)) (q : String) :
    Prop :=
  ∀ e ∈ table, ∀ a ∈ e.2,
    isSubB a.data q.data = false ∧
    isSubB a.data (lowerL q.data) = false ∧
    isSubB (lowerL q.data) a.data = false

instance (table : List (String × List String)) (q : String) :
    Decidable (noAliasRelationIn table q) := by
  unfold noAliasRelationIn; infer_instance

/-- No court or customs alias stands in a containment relation with the
query. -/
def noAliasRelation (q : String) : Prop :=
  noAliasRelationIn courtAliases q ∧ noAliasRelationIn customsAliases q

instance (q : String) : Decidable (noAliasRelation q) := by
  unfold noAliasRelation; infer_instance

/-- Does any date pattern match at position `i` of the query, normalizing to
`s`?  (Used to talk about where in the query a date's surface form stands.) -/
def dateMatchesAt (q : List Char) (i : Nat) (s : String) : Bool :=
  dateMatchers.any (fun pm =>
    match pm.1 (q.drop i) with
    | some (g, _) => normalize_date_match g pm.2 == some s
    | none => false)

/-- The first position of the query at which some date pattern matches with
normalized value `s`. -/
def firstSurfacePos (query : String) (s : String) : Option Nat :=
  (List.range (query.data.length + 1)).find? (fun i =>
    dateMatchesAt query.data i s)

/-- A digit-free character list. -/
def noDigitL (cs : List Char) : Prop := ∀ c ∈ cs, isDigitC c = false

/-- Non-increasing scores, as a pairwise relation. -/
def geScore (a b : SearchResult) : Prop := b.score ≤ a.score

/-- The KCS record used by the C2 witness. -/
def witnessRecord : Record :=
  ⟨some "2023구합208027", none, none, none, none, none⟩


/-! ### Helper lemmas: digit-free queries defeat every pattern -/

theorem noDigitL_tail {c : Char} {t : List Char} (h : noDigitL (c :: t)) :
    noDigitL t := fun x hx => h x (List.mem_cons_of_mem c hx)

theorem noDigitL_sub {cs ds : List Char} (hsub : ds ⊆ cs) (h : noDigitL cs) :
    noDigitL ds := fun c hc => h c (hsub hc)

theorem noDigitL_dropWhile {p : Char → Bool} {cs : List Char}
    (h : noDigitL cs) : noDigitL (cs.dropWhile p) :=
  noDigitL_sub (List.dropWhile_sublist p).subset h

theorem takeExact_isDigit_none {cs : List Char} (h : noDigitL cs) (n : Nat) :
    takeExact isDigitC (n + 1) cs = none := by
  cases cs with
  | nil => rfl
  | cons c t => simp [takeExact, h c (List.mem_cons_self c t)]

theorem matchSimpleCaseAt_noDigit {cs : List Char} (h : noDigitL cs) :
    matchSimpleCaseAt cs = none := by
  unfold matchSimpleCaseAt
  rw [show (4 : Nat) = 3 + 1 from rfl, takeExact_isDigit_none h 3]

theorem matchCaseAt_noDigit {cs : List Char} (h : noDigitL cs) :
    matchCaseAt cs = none := by
  unfold matchCaseAt takeRun
  dsimp only
  by_cases he : cs.takeWhile isHangulC = []
  · rw [if_pos he, matchSimpleCaseAt_noDigit h]
    rfl
  · rw [if_neg he]
    split
    · rw [matchSimpleCaseAt_noDigit (noDigitL_dropWhile h)]
      rfl
    · rfl

theorem matchHyphenAt_noDigit {cs : List Char} (h : noDigitL cs) :
    matchHyphenAt cs = none := by
  unfold matchHyphenAt
  rw [show (4 : Nat) = 3 + 1 from rfl, takeExact_isDigit_none h 3]

theorem matchDotAt_noDigit {cs : List Char} (h : noDigitL cs) :
    matchDotAt cs = none := by
  unfold matchDotAt
  rw [show (4 : Nat) = 3 + 1 from rfl, takeExact_isDigit_none h 3]

theorem matchSpaceDotAt_noDigit {cs : List Char} (h : noDigitL cs) :
    matchSpaceDotAt cs = none := by
  unfold matchSpaceDotAt
  rw [show (4 : Nat) = 3 + 1 from rfl, takeExact_isDigit_none h 3]

theorem matchKoreanAt_noDigit {cs : List Char} (h : noDigitL cs) :
    matchKoreanAt cs = none := by
  unfold matchKoreanAt
  rw [show (4 : Nat) = 3 + 1 from rfl, takeExact_isDigit_none h 3]

theorem matchCompactAt_noDigit {cs : List Char} (h : noDigitL cs) :
    matchCompactAt cs = none := by
  unfold matchCompactAt
  rw [show (8 : Nat) = 7 + 1 from rfl, takeExact_isDigit_none h 7]

theorem matchPrecFullAt_noDigit {cs : List Char} (h : noDigitL cs) :
    matchPrecFullAt cs = none := by
  unfold matchPrecFullAt
  split
  · next r0 =>
    have hr0 : noDigitL r0 := noDigitL_tail h
    unfold takeRun
    dsimp only
    by_cases hc : r0.takeWhile isHangulC = []
    · rw [if_pos hc]
    · rw [if_neg hc]
      by_cases hs : (r0.dropWhile isHangulC).takeWhile isSpaceC = []
      · rw [if_pos hs]
      · rw [if_neg hs]
        rw [show (4 : Nat) = 3 + 1 from rfl,
          takeExact_isDigit_none
            (noDigitL_dropWhile (noDigitL_dropWhile hr0)) 3]
  · rfl

theorem searchAux_noDigit {α : Type} {m : List Char → Option α}
    (hm : ∀ ds, noDigitL ds → m ds = none) :
    ∀ {cs : List Char}, noDigitL cs → searchAux m cs = none := by
  intro cs
  induction cs with
  | nil => intro h; exact hm [] h
  | cons c t ih =>
    intro h
    simp only [searchAux, hm _ h, ih (noDigitL_tail h)]

theorem findIterAux_noDigit {α : Type}
    {m : List Char → Option (α × List Char)}
    (hm : ∀ ds, noDigitL ds → m ds = none) :
    ∀ (fuel : Nat) {cs : List Char}, noDigitL cs →
      findIterAux m fuel cs = [] := by
  intro fuel
  induction fuel with
  | zero => intro cs _; rfl
  | succ n ih =>
    intro cs h
    cases cs with
    | nil => simp [findIterAux, hm [] h]
    | cons c t => simp [findIterAux, hm _ h, ih (noDigitL_tail h)]

theorem findIter_noDigit {α : Type} {m : List Char → Option (α × List Char)}
    (hm : ∀ ds, noDigitL ds → m ds = none) {cs : List Char}
    (h : noDigitL cs) : findIter m cs = [] :=
  findIterAux_noDigit hm _ h

theorem detect_case_number_noDigit {q : String} (h : noDigitStr q) :
    detect_case_number q = none := by
  unfold detect_case_number
  rw [searchAux_noDigit (fun ds hds => matchCaseAt_noDigit hds) h]

theorem detect_precedent_number_noDigit {q : String} (h : noDigitStr q) :
    detect_precedent_number q = none := by
  unfold detect_precedent_number
  rw [searchAux_noDigit (fun ds hds => matchPrecFullAt_noDigit hds) h,
    searchAux_noDigit (fun ds hds => matchSimpleCaseAt_noDigit hds) h]

theorem detect_date_noDigit {q : String} (h : noDigitStr q) :
    detect_date q = [] := by
  unfold detect_date dateMatchers
  simp only [List.foldl_cons, List.foldl_nil]
  rw [findIter_noDigit (fun ds hds => matchHyphenAt_noDigit hds) h,
    findIter_noDigit (fun ds hds => matchDotAt_noDigit hds) h,
    findIter_noDigit (fun ds hds => matchSpaceDotAt_noDigit hds) h,
    findIter_noDigit (fun ds hds => matchKoreanAt_noDigit hds) h,
    findIter_noDigit (fun ds hds => matchCompactAt_noDigit hds) h]
  rfl

/-! ### Helper lemmas: alias detectors fail without a containment relation -/

theorem passOneInner_none {q : List Char} {std : String} {as : List String}
    (h : ∀ a ∈ as, isSubB a.data q = false) :
    passOneInner q std as = none := by
  induction as with
  | nil => rfl
  | cons a t ih =>
    simp only [passOneInner, h a (List.mem_cons_self a t)]
    exact ih (fun b hb => h b (List.mem_cons_of_mem a hb))

theorem passOne_none {q : List Char} {table : List (String × List String)}
    (h : ∀ e ∈ table, ∀ a ∈ e.2, isSubB a.data q = false) :
    passOne q table = none := by
  induction table with
  | nil => rfl
  | cons e t ih =>
    simp only [passOne,
      passOneInner_none (h e (List.mem_cons_self e t))]
    exact ih (fun e2 he2 => h e2 (List.mem_cons_of_mem e he2))

theorem passTwoInner_none {query : String} {ql : List Char} {std : String}
    {as : List String}
    (h : ∀ a ∈ as, isSubB a.data ql = false ∧ isSubB ql a.data = false) :
    passTwoInner query ql std as = none := by
  induction as with
  | nil => rfl
  | cons a t ih =>
    simp only [passTwoInner, (h a (List.mem_cons_self a t)).1,
      (h a (List.mem_cons_self a t)).2]
    exact ih (fun b hb => h b (List.mem_cons_of_mem a hb))

theorem passTwo_none {query : String} {ql : List Char}
    {table : List (String × List String)}
    (h : ∀ e ∈ table, ∀ a ∈ e.2,
      isSubB a.data ql = false ∧ isSubB ql a.data = false) :
    passTwo query ql table = none := by
  induction table with
  | nil => rfl
  | cons e t ih =>
    simp only [passTwo,
      passTwoInner_none (h e (List.mem_cons_self e t))]
    exact ih (fun e2 he2 => h e2 (List.mem_cons_of_mem e he2))

theorem detect_court_noRel {q : String} (h : noAliasRelationIn courtAliases q) :
    detect_court q = none := by
  unfold detect_court
  rw [passOne_none (fun e he a ha => (h e he a ha).1)]
  exact passTwo_none
    (fun e he a ha => ⟨(h e he a ha).2.1, (h e he a ha).2.2⟩)

theorem detect_customs_noRel {q : String}
    (h : noAliasRelationIn customsAliases q) :
    detect_customs q = none := by
  unfold detect_customs
  rw [passOne_none (fun e he a ha => (h e he a ha).1)]
  exact passTwo_none
    (fun e he a ha => ⟨(h e he a ha).2.1, (h e he a ha).2.2⟩)

/-! ### Helper lemmas: zero scores and the empty field map -/

theorem match_case_number_score_none_left {q t : String}
    (h : detect_case_number q = none) : match_case_number_score q t = 0 := by
  unfold match_case_number_score
  rw [h]

theorem match_precedent_number_score_none_left {q t : String}
    (h : detect_precedent_number q = none) :
    match_precedent_number_score q t = 0 := by
  unfold match_precedent_number_score
  rw [h]

theorem field_scores_empty {q : String}
    (hcase : detect_case_number q = none)
    (hprec : detect_precedent_number q = none)
    (hdate : detect_date q = [])
    (hcourt : detect_court q = none)
    (hcustoms : detect_customs q = none)
    (d : Record) (src : String) : field_scores q d src = [] := by
  unfold field_scores
  rw [hdate, hcourt, hcustoms]
  dsimp only
  have h1 :
      (if src = "kcs" then
        match d.caseNumber with
        | some v =>
          let s := match_case_number_score q v
          if s > 0 then [("case_number", s, weightId)] else []
        | none => []
      else if src = "moleg" then
        match d.precedentNumber with
        | some v =>
          let s := match_precedent_number_score q v
          if s > 0 then [("precedent_number", s, weightId)] else []
        | none => []
      else []) = ([] : List (String × Rat × Rat)) := by
    split
    · cases d.caseNumber with
      | none => rfl
      | some v =>
        dsimp only
        rw [match_case_number_score_none_left hcase]
        rfl
    · split
      · cases d.precedentNumber with
        | none => rfl
        | some v =>
          dsimp only
          rw [match_precedent_number_score_none_left hprec]
          rfl
      · rfl
  rw [h1]
  have h2 :
      (if ([] : List String) ≠ [] then
        match (if src = "kcs" then d.kcsDate else d.molegDate) with
        | some dv =>
          let m := ([] : List String).foldl
            (fun acc dd => max acc (match_date_score dd dv)) 0
          if m > 0 then [("date", m, weightAux)] else []
        | none => []
      else []) = ([] : List (String × Rat × Rat)) := by
    rw [if_neg (by simp)]
  rw [h2]
  have h3 :
      (if src = "moleg" then
        match d.courtName with
        | some cv =>
          match (none : Option AliasMatch) with
          | some _ =>
            let s := match_court_score q cv
            if s > 0 then [("court", s, weightAux)] else []
          | none => []
        | none => []
      else []) = ([] : List (String × Rat × Rat)) := by
    split
    · cases d.courtName with
      | none => rfl
      | some cv => rfl
    · rfl
  rw [h3]
  have h4 :
      (if src = "kcs" then
        match d.customsOffice with
        | some cv =>
          match (none : Option AliasMatch) with
          | some _ =>
            let s := match_customs_score q cv
            if s > 0 then [("customs", s, weightAux)] else []
          | none => []
        | none => []
      else []) = ([] : List (String × Rat × Rat)) := by
    split
    · cases d.customsOffice with
      | none => rfl
      | some cv => rfl
    · rfl
  rw [h4]
  rfl

theorem calculate_zero {q : String}
    (hcase : detect_case_number q = none)
    (hprec : detect_precedent_number q = none)
    (hdate : detect_date q = [])
    (hcourt : detect_court q = none)
    (hcustoms : detect_customs q = none)
    (d : Record) (src : String) :
    calculate_precedent_score q d src = 0 := by
  unfold calculate_precedent_score
  rw [field_scores_empty hcase hprec hdate hcourt hcustoms d src]
  rfl

theorem scanRecords_zero_empty {q : String} {src : String} {m : Rat}
    (hm : 0 < m)
    (hz : ∀ d : Record, calculate_precedent_score q d src = 0) :
    ∀ l : List Record, scanRecords q src m l = [] := by
  intro l
  induction l with
  | nil => rfl
  | cons r rs ih =>
    unfold scanRecords
    have hnot : ¬ ((0 : Rat) ≥ m) := fun hge => lt_irrefl 0 (lt_of_lt_of_le hm hge)
    rw [hz r, if_neg hnot]
    exact ih

/-! ### Helper lemmas: the stable descending sort -/

theorem insertDesc_perm (x : SearchResult) (l : List SearchResult) :
    List.Perm (insertDesc x l) (x :: l) := by
  induction l with
  | nil => exact List.Perm.refl _
  | cons y ys ih =>
    unfold insertDesc
    by_cases hle : y.score ≤ x.score
    · rw [if_pos hle]
    · rw [if_neg hle]
      exact (ih.cons y).trans (List.Perm.swap x y ys)

theorem sortDesc_perm (l : List SearchResult) : List.Perm (sortDesc l) l := by
  induction l with
  | nil => exact List.Perm.refl _
  | cons x t ih =>
    exact (insertDesc_perm x (sortDesc t)).trans (ih.cons x)

theorem insertDesc_pairwise {x : SearchResult} {l : List SearchResult}
    (h : l.Pairwise geScore) : (insertDesc x l).Pairwise geScore := by
  induction l with
  | nil => simp [insertDesc, List.pairwise_singleton]
  | cons y ys ih =>
    rcases List.pairwise_cons.mp h with ⟨hy, hys⟩
    unfold insertDesc
    by_cases hle : y.score ≤ x.score
    · rw [if_pos hle]
      refine List.Pairwise.cons ?_ h
      intro b hb
      rcases List.mem_cons.mp hb with rfl | hb2
      · exact hle
      · exact le_trans (hy b hb2) hle
    · rw [if_neg hle]
      refine List.Pairwise.cons ?_ (ih hys)
      intro b hb
      rcases List.mem_cons.mp ((insertDesc_perm x ys).mem_iff.mp hb) with
        rfl | hb2
      · exact le_of_lt (not_le.mp hle)
      · exact hy b hb2

theorem sortDesc_pairwise (l : List SearchResult) :
    (sortDesc l).Pairwise geScore := by
  induction l with
  | nil => simp [sortDesc]
  | cons x t ih => exact insertDesc_pairwise ih

theorem filter_insertDesc (s : Rat) (x : SearchResult)
    (l : List SearchResult) :
    (insertDesc x l).filter (fun r => decide (r.score = s)) =
      (x :: l).filter (fun r => decide (r.score = s)) := by
  induction l with
  | nil => rfl
  | cons y ys ih =>
    unfold insertDesc
    by_cases hle : y.score ≤ x.score
    · rw [if_pos hle]
    · rw [if_neg hle]
      by_cases hy : y.score = s
      · have hx : ¬ x.score = s := fun hx => hle (le_of_eq (hy.trans hx.symm))
        simp [List.filter_cons, hy, hx, ih]
      · by_cases hx : x.score = s
        · simp [List.filter_cons, hy, hx, ih]
        · simp [List.filter_cons, hy, hx, ih]

theorem filter_sortDesc (s : Rat) (l : List SearchResult) :
    (sortDesc l).filter (fun r => decide (r.score = s)) =
      l.filter (fun r => decide (r.score = s)) := by
  induction l with
  | nil => rfl
  | cons x t ih =>
    rw [show sortDesc (x :: t) = insertDesc x (sortDesc t) from rfl,
      filter_insertDesc]
    simp [List.filter_cons, ih]

theorem filter_prefix_of_prefix {u v : List SearchResult} (h : u <+: v)
    (p : SearchResult → Bool) : u.filter p <+: v.filter p := by
  rcases h with ⟨t, rfl⟩
  rw [List.filter_append]
  exact ⟨_, rfl⟩

theorem scanRecords_min {q src : String} {m : Rat} :
    ∀ {l : List Record} {r : SearchResult},
      r ∈ scanRecords q src m l → m ≤ r.score := by
  intro l
  induction l with
  | nil => intro r hr; cases hr
  | cons rec rs ih =>
    intro r hr
    unfold scanRecords at hr
    dsimp only at hr
    by_cases hge : calculate_precedent_score q rec src ≥ m
    · rw [if_pos hge] at hr
      rcases List.mem_cons.mp hr with rfl | hr2
      · exact hge
      · exact ih hr2
    · rw [if_neg hge] at hr
      exact ih hr

/-! ### Helper lemmas: shape of the field-score map -/

theorem field_scores_mem {q : String} {d : Record} {src : String}
    {e : String × Rat × Rat} (he : e ∈ field_scores q d src) :
    0 < e.2.1 ∧
      ((e.2.2 = weightId ∧ (e.1 = "case_number" ∨ e.1 = "precedent_number")) ∨
       (e.2.2 = weightAux ∧ (e.1 = "date" ∨ e.1 = "court" ∨
         e.1 = "customs"))) := by
  unfold field_scores at he
  simp only [List.mem_append] at he
  rcases he with ((he | he) | he) | he
  all_goals repeat' split at he
  all_goals
    first
    | exact absurd he (List.not_mem_nil e)
    | (rcases List.mem_singleton.mp he with rfl
       refine ⟨by assumption, ?_⟩
       first
       | exact Or.inl ⟨rfl, Or.inl rfl⟩
       | exact Or.inl ⟨rfl, Or.inr rfl⟩
       | exact Or.inr ⟨rfl, Or.inl rfl⟩
       | exact Or.inr ⟨rfl, Or.inr (Or.inl rfl)⟩
       | exact Or.inr ⟨rfl, Or.inr (Or.inr rfl)⟩)

theorem weightId_pos : (0 : Rat) < weightId := by decide

theorem weightAux_pos : (0 : Rat) < weightAux := by decide

theorem field_scores_wpos {q : String} {d : Record} {src : String} :
    ∀ e ∈ field_scores q d src, 0 < e.2.2 := by
  intro e he
  rcases (field_scores_mem he).2 with ⟨hw, _⟩ | ⟨hw, _⟩
  · rw [hw]; exact weightId_pos
  · rw [hw]; exact weightAux_pos

theorem foldl_add_map {α : Type} (f : α → Rat) :
    ∀ (l : List α) (a : Rat),
      l.foldl (fun acc e => acc + f e) a = a + (l.map f).sum := by
  intro l
  induction l with
  | nil => intro a; simp
  | cons x t ih =>
    intro a
    simp [List.foldl_cons, List.map_cons, List.sum_cons, ih, add_assoc]

theorem weightSum_pos {l : List (String × Rat × Rat)}
    (hpos : ∀ e ∈ l, 0 < e.2.2) (hne : l ≠ []) : 0 < weightSum l := by
  cases l with
  | nil => cases hne rfl
  | cons x t =>
    have h1 : 0 < x.2.2 := hpos x (List.mem_cons_self x t)
    have h2 : 0 ≤ (t.map (fun e => e.2.2)).sum := by
      apply List.sum_nonneg
      intro a ha
      rcases List.mem_map.mp ha with ⟨e, hmem, rfl⟩
      exact le_of_lt (hpos e (List.mem_cons_of_mem x hmem))
    unfold weightSum
    rw [List.map_cons, List.sum_cons]
    exact add_pos_of_pos_of_nonneg h1 h2

/-! ### Small glue lemmas for the claim proofs -/

theorem ite_ne_rat {c : Prop} [Decidable c] {a b x : Rat} (ha : a ≠ x)
    (hb : b ≠ x) : (if c then a else b) ≠ x := by
  by_cases h : c
  · rw [if_pos h]; exact ha
  · rw [if_neg h]; exact hb

/-! ### Claim theorems -/

/-- C5: `detect_date` yields exactly `["2024-12-19"]` on each of the five
surface forms `2024-12-19`, `2024.12.19`, `2024 12. 19`, `2024년 12월 19일`,
`20241219`, and yields `[]` on `2024-13-32`, whose candidate fails
real-calendar-date validation and is silently dropped. -/
theorem date_detector_examples :
    detect_date "2024-12-19" = ["2024-12-19"] ∧
    detect_date "2024.12.19" = ["2024-12-19"] ∧
    detect_date "2024 12. 19" = ["2024-12-19"] ∧
    detect_date "2024년 12월 19일" = ["2024-12-19"] ∧
    detect_date "20241219" = ["2024-12-19"] ∧
    detect_date "2024-13-32" = [] :=
  ⟨by decide, by decide, by decide, by decide, by decide, by decide⟩

/-- C3: whenever both sides parse as precedent numbers, equal case ids with
unequal normalized full strings give score 90; consequently the
court-agreement branch is unreachable and `match_precedent_number_score`
never returns 85 on any input. -/
theorem precedent_scorer_branch_order :
    (∀ (q t : String) (qi ti : PrecInfo),
      detect_precedent_number q = some qi →
      detect_precedent_number t = some ti →
      qi.case_id = ti.case_id →
      normalize_text q ≠ normalize_text t →
      match_precedent_number_score q t = 90) ∧
    (∀ q t : String, match_precedent_number_score q t ≠ 85) := by
  constructor
  · intro q t qi ti hq ht hid hne
    unfold match_precedent_number_score
    simp only [hq, ht]
    rw [if_neg hne, if_pos hid]
  · intro q t
    unfold match_precedent_number_score
    cases hq : detect_precedent_number q with
    | none => exact (by decide : (0 : Rat) ≠ 85)
    | some qi =>
      cases ht : detect_precedent_number t with
      | none => exact (by decide : (0 : Rat) ≠ 85)
      | some ti =>
        show (if normalize_text q = normalize_text t then (100 : Rat)
          else if qi.case_id = ti.case_id then 90
          else if qi.court ≠ "" ∧ ti.court ≠ "" ∧ qi.court = ti.court ∧
              qi.case_id = ti.case_id then 85
          else
            match firstHangulRun qi.case_id.data,
                firstHangulRun ti.case_id.data with
            | some qt, some tt =>
              if qi.case_id.data.take 4 = ti.case_id.data.take 4 ∧ qt = tt
                then 60 else 0
            | _, _ => 0) ≠ 85
        split_ifs with h1 h2 h3
        · decide
        · decide
        · exact absurd h3.2.2.2 h2
        · cases hfq : firstHangulRun qi.case_id.data with
          | none => exact (by decide : (0 : Rat) ≠ 85)
          | some qt =>
            cases hft : firstHangulRun ti.case_id.data with
            | none => exact (by decide : (0 : Rat) ≠ 85)
            | some tt => exact ite_ne_rat (by decide) (by decide)

/-- C3 witness: the bare case id against the full citation scores 90. -/
theorem precedent_scorer_branch_order_witness :
    match_precedent_number_score "2023도1907"
      "[대법원 2025. 2. 13. 선고 2023도1907 판결]" = 90 :=
  precedent_scorer_branch_order.1 "2023도1907"
    "[대법원 2025. 2. 13. 선고 2023도1907 판결]"
    ⟨"", "", "2023도1907", "2023도1907"⟩
    ⟨"대법원", "2025-02-13", "2023도1907",
      "[대법원 2025. 2. 13. 선고 2023도1907 판결]"⟩
    (by decide) (by decide) (by decide) (by decide)

/-- C4: whenever both sides parse as case numbers with equal cores
(year+type+number) but unequal full strings, the score is 90 exactly when
the query-side detection carries a non-empty court token and 85 otherwise,
independently of the target side. -/
theorem case_scorer_court_tiebreak :
    ∀ (q t : String) (qi ti : CaseInfo),
      detect_case_number q = some qi →
      detect_case_number t = some ti →
      qi.year ++ qi.type ++ qi.number = ti.year ++ ti.type ++ ti.number →
      qi.full ≠ ti.full →
      match_case_number_score q t = if qi.court ≠ "" then 90 else 85 := by
  intro q t qi ti hq ht hcore hfull
  unfold match_case_number_score
  simp only [hq, ht]
  rw [if_neg hfull, if_pos hcore]

/-- C4 witness: court-bearing query against bare core scores 90. -/
theorem case_scorer_court_tiebreak_witness :
    match_case_number_score "대전지법2023구합208027" "2023구합208027" = 90 := by
  have h := case_scorer_court_tiebreak "대전지법2023구합208027" "2023구합208027"
    ⟨"대전지법", "2023", "구합", "208027", "대전지법2023구합208027"⟩
    ⟨"", "2023", "구합", "208027", "2023구합208027"⟩
    (by decide) (by decide) (by decide) (by decide)
  rw [if_pos (by decide)] at h
  exact h

/-- C10: on the empty query both alias detectors return a match for the
first table entry (the empty string is a substring of every alias), with
empty `input` and `is_alias = true`; nevertheless both alias scorers return
0 whenever the query or the target is the empty string, by their emptiness
guards. -/
theorem empty_query_alias_detection :
    detect_court "" = some ⟨"", "대법원", true⟩ ∧
    detect_customs "" = some ⟨"", "인천공항세관", true⟩ ∧
    (∀ q t : String, q = "" ∨ t = "" →
      match_court_score q t = 0 ∧ match_customs_score q t = 0) := by
  refine ⟨by decide, by decide, ?_⟩
  intro q t h
  constructor
  · unfold match_court_score
    rw [if_pos h]
  · unfold match_customs_score
    rw [if_pos h]

/-- C10 witness: both scorers return 0 on an empty query side. -/
theorem empty_query_alias_detection_witness :
    match_court_score "" "대법원" = 0 ∧ match_customs_score "" "대법원" = 0 :=
  empty_query_alias_detection.2.2 "" "대법원" (Or.inl rfl)

/-- C6 counterexample: the digit-free query `"가"` stands in no containment
relation with any alias, yet with `minScore = 0` the search returns every
record (with score 0), so the result is not empty for every `minScore`. -/
theorem irrelevant_query_counterexample :
    noDigitStr "가" ∧ noAliasRelation "가" ∧
    search_precedent "가" [⟨none, none, none, none, none, none⟩] [] 20 0 ≠
      [] :=
  ⟨by decide, by decide, by decide⟩

/-- C6 (amended): an irrelevant query (no digits, no containment relation
with any court or customs alias) yields the empty result list for every
positive `minScore` — at `minScore ≤ 0` zero-scored records pass the
`score ≥ minScore` filter, so the original "regardless of minScore" fails. -/
theorem irrelevant_query_empty (q : String) (kcs moleg : List Record)
    (k : Nat) (m : Rat) (hd : noDigitStr q) (hrel : noAliasRelation q)
    (hm : 0 < m) : search_precedent q kcs moleg k m = [] := by
  have hcase := detect_case_number_noDigit hd
  have hprec := detect_precedent_number_noDigit hd
  have hdate := detect_date_noDigit hd
  have hcourt := detect_court_noRel hrel.1
  have hcustoms := detect_customs_noRel hrel.2
  have hz : ∀ (d : Record) (src : String),
      calculate_precedent_score q d src = 0 :=
    calculate_zero hcase hprec hdate hcourt hcustoms
  unfold search_precedent
  rw [scanRecords_zero_empty hm (fun d => hz d "kcs") kcs,
    scanRecords_zero_empty hm (fun d => hz d "moleg") moleg]
  simp [sortDesc]

/-- C6 witness: the amended statement at the query `"가"`, one KCS record
and the default threshold 30. -/
theorem irrelevant_query_empty_witness :
    search_precedent "가" [⟨none, none, none, none, none, none⟩] [] 20 30 =
      [] :=
  irrelevant_query_empty "가" [⟨none, none, none, none, none, none⟩] [] 20 30
    (by decide) (by decide) (by decide)

/-! ### Helper lemmas: dedup structure of `detect_date` -/

theorem foldl_norm_filterMap (ty : String) :
    ∀ (gs : List (List (List Char))) (ds : List String),
      gs.foldl (fun ds g =>
        match normalize_date_match g ty with
        | some s => if s ∈ ds then ds else ds ++ [s]
        | none => ds) ds =
      (gs.filterMap (fun g => normalize_date_match g ty)).foldl
        (fun ds s => if s ∈ ds then ds else ds ++ [s]) ds := by
  intro gs
  induction gs with
  | nil => intro ds; rfl
  | cons g t ih =>
    intro ds
    cases hg : normalize_date_match g ty with
    | none => simp [List.foldl_cons, List.filterMap_cons, hg, ih]
    | some s => simp [List.foldl_cons, List.filterMap_cons, hg, ih]

theorem detect_date_eq_dedup_aux :
    ∀ (ms : List ((List Char → Option (List (List Char) × List Char)) ×
        String)) (q : String) (ds : List String),
      ms.foldl (fun dates pm =>
        (findIter pm.1 q.data).foldl (fun ds g =>
          match normalize_date_match g pm.2 with
          | some s => if s ∈ ds then ds else ds ++ [s]
          | none => ds) dates) ds =
      (ms.foldr (fun pm acc =>
        (findIter pm.1 q.data).filterMap
          (fun g => normalize_date_match g pm.2) ++ acc) []).foldl
        (fun ds s => if s ∈ ds then ds else ds ++ [s]) ds := by
  intro ms
  induction ms with
  | nil => intro q ds; rfl
  | cons pm t ih =>
    intro q ds
    rw [List.foldl_cons, List.foldr_cons, List.foldl_append,
      foldl_norm_filterMap pm.2, ih]

theorem dedup_foldl_nodup :
    ∀ (l : List String) (ds : List String), ds.Nodup →
      (l.foldl (fun ds s => if s ∈ ds then ds else ds ++ [s]) ds).Nodup := by
  intro l
  induction l with
  | nil => intro ds h; exact h
  | cons s t ih =>
    intro ds h
    rw [List.foldl_cons]
    by_cases hs : s ∈ ds
    · rw [if_pos hs]
      exact ih ds h
    · rw [if_neg hs]
      refine ih _ ?_
      simp [List.nodup_append, h, hs]

/-- C8 counterexample: in `"2024.1.2 2025-3-4"` the dotted date appears
first in the query (its surface form matches at position 0, the hyphenated
one only at position 9), yet `detect_date` lists the hyphenated date first
— the output order is not the order of first appearance in the query. -/
theorem date_order_counterexample :
    detect_date "2024.1.2 2025-3-4" = ["2025-03-04", "2024-01-02"] ∧
    firstSurfacePos "2024.1.2 2025-3-4" "2024-01-02" = some 0 ∧
    firstSurfacePos "2024.1.2 2025-3-4" "2025-03-04" = some 9 :=
  ⟨by decide, by decide, by decide⟩

/-- C8 (amended): `detect_date` returns normalized dates with duplicates
suppressed, keeping first occurrences of its scan order, which is
pattern-major (the five `DATE_PATTERNS` in source order, each scanned left
to right over the whole query) — not in general the order in which the
dates first appear in the query when surface formats mix. -/
theorem date_order_pattern_major (q : String) :
    detect_date q = dedupKeepFirst (dateCandidates q) ∧
    (detect_date q).Nodup := by
  have h : detect_date q = dedupKeepFirst (dateCandidates q) :=
    detect_date_eq_dedup_aux dateMatchers q []
  refine ⟨h, ?_⟩
  rw [h]
  exact dedup_foldl_nodup (dateCandidates q) [] List.nodup_nil

/-! ### Helper lemmas: the exception-aware variants agree and never escape -/

theorem normE_project (g : List (List Char)) (ty : String) :
    (match normalize_date_matchE g ty with
     | Except.ok o => o
     | Except.error _ => none) = normalize_date_match g ty := by
  unfold normalize_date_matchE normalize_date_match
  by_cases hty : ty = "compact"
  · rw [if_pos hty, if_pos hty]
    match g with
    | [] => rfl
    | [ds] =>
      dsimp only
      by_cases h8 : ds.length = 8
      · rw [if_pos h8, if_pos h8]
        dsimp only
        cases h1 : charsToNat? (ds.take 4) with
        | none => simp [charsToNatE, h1]
        | some yn =>
          cases h2 : charsToNat? ((ds.drop 4).take 2) with
          | none => simp [charsToNatE, h1, h2]
          | some mn =>
            cases h3 : charsToNat? (ds.drop 6) with
            | none => simp [charsToNatE, h1, h2, h3]
            | some dn =>
              simp only [charsToNatE, h1, h2, h3, datetimeE]
              by_cases hv : isValidDate yn mn dn = true
              · rw [if_pos hv, if_pos hv]
              · rw [if_neg hv, if_neg hv]
      · rw [if_neg h8, if_neg h8]
    | a :: b :: rest => rfl
  · rw [if_neg hty, if_neg hty]
    match g with
    | [] => rfl
    | [y] => rfl
    | [y, mo] => rfl
    | y :: mo :: d :: rest =>
      dsimp only
      cases h1 : charsToNat? y with
      | none => simp [charsToNatE, h1]
      | some yn =>
        cases h2 : charsToNat? mo with
        | none => simp [charsToNatE, h1, h2]
        | some mn =>
          cases h3 : charsToNat? d with
          | none => simp [charsToNatE, h1, h2, h3]
          | some dn =>
            simp only [charsToNatE, h1, h2, h3, datetimeE]
            by_cases hv : isValidDate yn mn dn = true
            · rw [if_pos hv, if_pos hv]
            · rw [if_neg hv, if_neg hv]

theorem stepE_eq_step (ty : String) (ds : List String)
    (g : List (List Char)) :
    (match normalize_date_matchE g ty with
     | Except.ok (some s) => if s ∈ ds then ds else ds ++ [s]
     | Except.ok none => ds
     | Except.error _ => ds) =
    (match normalize_date_match g ty with
     | some s => if s ∈ ds then ds else ds ++ [s]
     | none => ds) := by
  have h := normE_project g ty
  cases hE : normalize_date_matchE g ty with
  | ok o =>
    rw [hE] at h
    cases o with
    | none => rw [← h]
    | some s => rw [← h]
  | error e =>
    rw [hE] at h
    rw [← h]

theorem detect_dateE_eq (q : String) : detect_dateE q = detect_date q := by
  unfold detect_dateE detect_date
  apply List.foldl_ext
  intro ds pm _
  apply List.foldl_ext
  intro ds2 g _
  exact stepE_eq_step pm.2 ds2 g

theorem splitOnChar_ne_nil (sep : Char) :
    ∀ cs : List Char, splitOnChar sep cs ≠ [] := by
  intro cs
  induction cs with
  | nil => exact fun h => (List.cons_ne_nil _ _) h
  | cons c t ih =>
    unfold splitOnChar
    by_cases hc : c = sep
    · rw [if_pos hc]
      exact List.cons_ne_nil _ _
    · rw [if_neg hc]
      cases hr : splitOnChar sep t with
      | nil => exact absurd hr ih
      | cons h2 t2 => exact List.cons_ne_nil _ _

theorem match_date_scoreE_ok (q t : String) :
    match_date_scoreE q t = Except.ok (match_date_score q t) := by
  unfold match_date_scoreE match_date_score
  by_cases h0 : q = "" ∨ t = ""
  · rw [if_pos h0, if_pos h0]
  · rw [if_neg h0, if_neg h0]
    by_cases h1 : normalize_text q = normalize_text t
    · rw [if_pos h1, if_pos h1]
    · rw [if_neg h1, if_neg h1]
      cases hq : splitOnChar '-' q.data with
      | nil => exact absurd hq (splitOnChar_ne_nil '-' q.data)
      | cons q0 qrest =>
        have htne : (if t.data.contains '-' then splitOnChar '-' t.data
            else splitOnChar '.' t.data) ≠ [] := by
          split
          · exact splitOnChar_ne_nil '-' t.data
          · exact splitOnChar_ne_nil '.' t.data
        cases htp : (if t.data.contains '-' then splitOnChar '-' t.data
            else splitOnChar '.' t.data) with
        | nil => exact absurd htp htne
        | cons t0 trest =>
          simp only [hq, htp]
          rw [if_pos (by simp)]
          simp only [listGetE, List.get?]
          by_cases hq0 : q0 = t0
          · rw [if_pos hq0, if_pos hq0]
            cases qrest with
            | nil =>
              rw [if_neg (by simp)]
            | cons q1 qr2 =>
              cases trest with
              | nil =>
                rw [if_neg (by simp)]
              | cons t1 tr2 =>
                rw [if_pos (by simp [Nat.succ_le_succ])]
                simp only [listGetE, List.get?]
                by_cases hz : zfill 2 q1 = zfill 2 t1
                · rw [if_pos hz, if_pos hz]
                · rw [if_neg hz, if_neg hz]
          · rw [if_neg hq0, if_neg hq0]

/-- C9: the detectors and field scorers are total on arbitrary string
input.  The three date functions contain the only raise sites (inside
`try` blocks); their exception-aware embeddings never propagate an error
and agree with the plain embeddings.  On degenerate input (no digits, or
an empty string) each function returns its absence value — `none`, `[]`,
or `0.0` — rather than failing. -/
theorem detectors_scorers_total (q t : String) :
    detect_dateE q = detect_date q ∧
    match_date_scoreE q t = Except.ok (match_date_score q t) ∧
    (noDigitStr q →
      detect_case_number q = none ∧ detect_precedent_number q = none ∧
      detect_date q = []) ∧
    match_case_number_score "" t = 0 ∧
    match_precedent_number_score "" t = 0 ∧
    match_date_score "" t = 0 ∧
    match_court_score "" t = 0 ∧
    match_customs_score "" t = 0 ∧
    detect_all_patterns q = ⟨detect_case_number q, detect_precedent_number q,
      detect_date q, detect_court q, detect_customs q⟩ := by
  refine ⟨detect_dateE_eq q, match_date_scoreE_ok q t, ?_, ?_, ?_, ?_, ?_, ?_,
    rfl⟩
  · intro hd
    exact ⟨detect_case_number_noDigit hd, detect_precedent_number_noDigit hd,
      detect_date_noDigit hd⟩
  · exact match_case_number_score_none_left (by decide)
  · exact match_precedent_number_score_none_left (by decide)
  · unfold match_date_score
    rw [if_pos (Or.inl rfl)]
  · unfold match_court_score
    rw [if_pos (Or.inl rfl)]
  · unfold match_customs_score
    rw [if_pos (Or.inl rfl)]

/-- C9 witness: the punctuation-only, digit-free query `"?!"`. -/
theorem detectors_scorers_total_witness :
    detect_case_number "?!" = none ∧ detect_precedent_number "?!" = none ∧
    detect_date "?!" = [] :=
  (detectors_scorers_total "?!" "").2.2.1 (by decide)

/-! ### Helper lemmas: fold sums for the aggregate formula -/

theorem foldl_sw : ∀ (l : List (String × Rat × Rat)) (a : Rat),
    l.foldl (fun acc e => acc + e.2.1 * e.2.2) a = a + weightedScoreSum l := by
  intro l
  induction l with
  | nil => intro a; simp [weightedScoreSum]
  | cons x r ih =>
    intro a
    rw [List.foldl_cons, ih]
    unfold weightedScoreSum
    rw [List.map_cons, List.sum_cons]
    ring

theorem foldl_w : ∀ (l : List (String × Rat × Rat)) (a : Rat),
    l.foldl (fun acc e => acc + e.2.2) a = a + weightSum l := by
  intro l
  induction l with
  | nil => intro a; simp [weightSum]
  | cons x r ih =>
    intro a
    rw [List.foldl_cons, ih]
    unfold weightSum
    rw [List.map_cons, List.sum_cons]
    ring

/-- C1: `calculate_precedent_score` returns 0 when no applicable field
contributes (a field contributes only with a strictly positive score), and
otherwise `min(base + bonus, 100)` where `base` is the weighted average
renormalized over the contributing fields' weights and the bonus depends
only on the contributing-field count; a record contributing only the date
field is scored purely by its date score. -/
theorem aggregate_score_formula (q : String) (d : Record) (src : String)
    (_hsrc : src = "kcs" ∨ src = "moleg") :
    (field_scores q d src = [] → calculate_precedent_score q d src = 0) ∧
    (field_scores q d src ≠ [] →
      calculate_precedent_score q d src =
        min (weightedScoreSum (field_scores q d src) /
            weightSum (field_scores q d src) +
          fieldBonus (field_scores q d src).length) 100) ∧
    (∀ e ∈ field_scores q d src, 0 < e.2.1) ∧
    (∀ s w : Rat, field_scores q d src = [("date", s, w)] →
      calculate_precedent_score q d src = min s 100) := by
  have hB : field_scores q d src ≠ [] →
      calculate_precedent_score q d src =
        min (weightedScoreSum (field_scores q d src) /
            weightSum (field_scores q d src) +
          fieldBonus (field_scores q d src).length) 100 := by
    intro h
    simp only [calculate_precedent_score]
    rw [if_neg h, foldl_sw, foldl_w, zero_add, zero_add]
    have hw : (0 : Rat) < weightSum (field_scores q d src) :=
      weightSum_pos field_scores_wpos h
    rw [if_pos hw]
    rfl
  refine ⟨?_, hB, fun e he => (field_scores_mem he).1, ?_⟩
  · intro h
    simp only [calculate_precedent_score]
    rw [if_pos h]
  · intro s w hfs
    have hne : field_scores q d src ≠ [] := by
      rw [hfs]
      exact List.cons_ne_nil _ _
    have hmem : ("date", s, w) ∈ field_scores q d src := by
      rw [hfs]
      exact List.mem_singleton_self _
    have hw : w = weightAux := by
      rcases (field_scores_mem hmem).2 with ⟨_, hl | hl⟩ | ⟨hw2, _⟩
      · exact absurd hl ((by decide : ¬ ("date" : String) = "case_number"))
      · exact absurd hl
          ((by decide : ¬ ("date" : String) = "precedent_number"))
      · exact hw2
    rw [hB hne, hfs, hw]
    have h1 : weightedScoreSum [("date", s, weightAux)] = s * weightAux := by
      unfold weightedScoreSum
      simp
    have h2 : weightSum [("date", s, weightAux)] = weightAux := by
      unfold weightSum
      simp
    have h3 : fieldBonus ([("date", s, weightAux)] :
        List (String × Rat × Rat)).length = 0 := by
      simp [fieldBonus]
    rw [h1, h2, h3, mul_div_assoc, div_self (ne_of_gt weightAux_pos),
      mul_one, add_zero]

/-- C1 witness: a KCS record matching exactly on its case number. -/
theorem aggregate_score_formula_witness :
    calculate_precedent_score "2023구합208027"
        ⟨some "2023구합208027", none, none, none, none, none⟩ "kcs" =
      min (weightedScoreSum (field_scores "2023구합208027"
          ⟨some "2023구합208027", none, none, none, none, none⟩ "kcs") /
          weightSum (field_scores "2023구합208027"
          ⟨some "2023구합208027", none, none, none, none, none⟩ "kcs") +
        fieldBonus (field_scores "2023구합208027"
          ⟨some "2023구합208027", none, none, none, none, none⟩
            "kcs").length) 100 :=
  (aggregate_score_formula "2023구합208027"
    ⟨some "2023구합208027", none, none, none, none, none⟩ "kcs"
    (Or.inl rfl)).2.1 (by decide)

/-! ### C2 / C7: orchestrator post-conditions and stability -/

/-- C2: every returned result reaches `minScore`, the returned list is
sorted by non-increasing score, and at most `topK` results are returned. -/
theorem search_postconditions (q : String) (kcs moleg : List Record)
    (k : Nat) (m : Rat) :
    (∀ r ∈ search_precedent q kcs moleg k m, m ≤ r.score) ∧
    (search_precedent q kcs moleg k m).Pairwise geScore ∧
    (search_precedent q kcs moleg k m).length ≤ k := by
  refine ⟨?_, ?_, ?_⟩
  · intro r hr
    unfold search_precedent at hr
    have hr2 := List.take_subset k _ hr
    rcases List.mem_append.mp ((sortDesc_perm _).mem_iff.mp hr2) with h | h
    · exact scanRecords_min h
    · exact scanRecords_min h
  · unfold search_precedent
    exact (sortDesc_pairwise _).sublist (List.take_sublist k _)
  · unfold search_precedent
    exact List.length_take_le k _

theorem witness_calc :
    calculate_precedent_score "2023구합208027" witnessRecord "kcs" = 100 := by
  have hfs : field_scores "2023구합208027" witnessRecord "kcs" =
      [("case_number", 100, weightId)] := by decide
  simp only [calculate_precedent_score, hfs]
  norm_num [weightId, Rat.mkRat_eq_div, min_self]

theorem witness_search :
    search_precedent "2023구합208027" [witnessRecord] [] 20 30 =
      [⟨100, "kcs", witnessRecord, [("사건번호", 100)]⟩] := by
  have hmf : get_matched_fields "2023구합208027" witnessRecord "kcs" =
      [("사건번호", 100)] := by decide
  have hscan : scanRecords "2023구합208027" "kcs" 30 [witnessRecord] =
      [⟨100, "kcs", witnessRecord, [("사건번호", 100)]⟩] := by
    simp only [scanRecords, witness_calc, hmf]
    rw [if_pos (by norm_num)]
  unfold search_precedent
  rw [hscan]
  simp [sortDesc, insertDesc]

/-- C2 witness: the single returned result meets the threshold 30. -/
theorem search_postconditions_witness :
    (30 : Rat) ≤
      (⟨100, "kcs", witnessRecord, [("사건번호", 100)]⟩ :
        SearchResult).score := by
  refine (search_postconditions "2023구합208027" [witnessRecord] [] 20 30).1
    _ ?_
  rw [witness_search]
  exact List.mem_singleton_self _

/-- C7: among the returned results, those with one given score form a
prefix of the same-scored results of the scan list (KCS records scanned
first, then MOLEG, both in collection order): the descending sort is
stable with no secondary key, so equal-scored results retain scan order,
KCS before MOLEG. -/
theorem equal_scores_scan_order (q : String) (kcs moleg : List Record)
    (k : Nat) (m s : Rat) :
    (search_precedent q kcs moleg k m).filter
        (fun r => decide (r.score = s)) <+:
      (scanRecords q "kcs" m kcs ++ scanRecords q "moleg" m moleg).filter
        (fun r => decide (r.score = s)) := by
  unfold search_precedent
  have h1 := filter_prefix_of_prefix
    (List.take_prefix k (sortDesc (scanRecords q "kcs" m kcs ++
      scanRecords q "moleg" m moleg))) (fun r => decide (r.score = s))
  rw [filter_sortDesc] at h1
  exact h1
